import Mathlib

/-!
Verification of the RPC client of the `conan` editor (`src/rpc/client.rs`).
The client multiplexes requests over a line-oriented duplex transport:
`send_request` assigns an id from a per-handle counter, writes the frame and
registers a callback in a shared pending table; a reader thread decodes each
inbound line into a Request, Response or Notification and dispatches it.
This file embeds that logic shallowly: machine integers become `Nat`,
the `HashMap` pending table becomes an association list with overwrite
semantics, the unbounded in-order channel becomes a list of emitted
operations, callbacks become abstract tokens whose invocations are recorded
as events, and the `panic` / `unreachable` aborts of the reader thread
become an explicit `panicked` outcome.
-/

namespace Conan

/-- JSON values, as used by `serde_json::Value` in the source. Objects keep
their fields as an ordered list of key/value pairs. -/
inductive Json where
  | null
  | bool (b : Bool)
  | num (n : Int)
  | str (s : String)
  | arr (elems : List Json)
  | obj (fields : List (String × Json))

/-- Modelled from the spec: the typed frames of `src/rpc/message.rs`, which
is not under src/. A Request carries method, params and id; a Notification
carries method and params; a Response carries an id and a result that is
either an ok payload or an error payload. -/
structure RpcRequest where
  method : String
  params : Json
  id : Nat

/-- Modelled from the spec: the Response frame, `{id, result}` where the
result is `Ok` or `Err` of a JSON value. -/
structure RpcResponse where
  id : Nat
  result : Except Json Json

/-- Modelled from the spec: the Notification frame, `{method, params}`. -/
structure RpcNotification where
  method : String
  params : Json

/-- Modelled from the spec: the tagged union of the three frame shapes
(`Message` in `src/rpc/message.rs`, not under src/). -/
inductive Message where
  | request (r : RpcRequest)
  | response (r : RpcResponse)
  | notification (n : RpcNotification)

/-- Modelled from the spec: decode failure of the frame codec
(`src/rpc/errors.rs` is not under src/; the spec names the single variant
`DecodeError::Malformed`). -/
inductive DecodeError where
  | malformed

/-- Field lookup in a JSON object, first occurrence wins. -/
def getField : List (String × Json) → String → Option Json
  | [], _ => none
  | (k, v) :: rest, key => if k = key then some v else getField rest key

/-- Modelled from the spec: the frame codec decoding rules of section 4.1.
The input line is `none` when the line is not valid JSON at all, `some j`
when it parses to the JSON value `j`. Presence of `method` and `id` is a
Request from the peer; `method` without `id` is a Notification; `id` without
`method` is a Response whose result is the `result` field if present, else
the `error` field; anything else is malformed. -/
def decodeMsg : Option Json → Except DecodeError Message
  | none => .error .malformed
  | some (.obj fields) =>
    match getField fields "method", getField fields "id" with
    | some (.str m), none =>
      .ok (.notification ⟨m, (getField fields "params").getD .null⟩)
    | some (.str m), some (.num (.ofNat i)) =>
      .ok (.request ⟨m, (getField fields "params").getD .null, i⟩)
    | none, some (.num (.ofNat i)) =>
      match getField fields "result", getField fields "error" with
      | some r, _ => .ok (.response ⟨i, .ok r⟩)
      | none, some e => .ok (.response ⟨i, .error e⟩)
      | none, none => .error .malformed
    | _, _ => .error .malformed
  | some _ => .error .malformed

/-- The typed domain operations emitted by the reader thread
(`RpcOperations` in `src/rpc/client.rs`, lines 73-91). The payload struct
types live in `src/rpc/structs.rs`, which is not under src/, so each variant
carries the raw params value and the serde decode of params into the typed
struct is modelled as carrying that value. -/
inductive RpcOperations where
  | update (params : Json)
  | scrollTo (params : Json)
  | defStyle (params : Json)
  | availablePlugins (params : Json)
  | updateCmds (params : Json)
  | pluginStarted (params : Json)
  | pluginStopped (params : Json)
  | configChanged (params : Json)
  | themeChanged (params : Json)
  | alert (params : Json)
  | availableThemes (params : Json)
  | findStatus (params : Json)
  | replaceStatus (params : Json)
  | availableLanguages (params : Json)
  | languageChanged (params : Json)
  | measureWidth (p : Nat × Json)

/-- Routing of an inbound notification by method name
(`Client::handle_notification`, `src/rpc/client.rs` lines 242-281).
The wildcard arm of the source is `unreachable!`, an abort; it is modelled
as `none`. -/
def handleNotification (method : String) (params : Json) : Option RpcOperations :=
  match method with
  | "update" => some (.update params)
  | "scroll_to" => some (.scrollTo params)
  | "def_style" => some (.defStyle params)
  | "available_plugins" => some (.availablePlugins params)
  | "plugin_started" => some (.pluginStarted params)
  | "plugin_stopped" => some (.pluginStopped params)
  | "update_cmds" => some (.updateCmds params)
  | "config_changed" => some (.configChanged params)
  | "theme_changed" => some (.themeChanged params)
  | "alert" => some (.alert params)
  | "available_themes" => some (.availableThemes params)
  | "find_status" => some (.findStatus params)
  | "replace_status" => some (.replaceStatus params)
  | "available_languages" => some (.availableLanguages params)
  | "language_changed" => some (.languageChanged params)
  | _ => none

/-- The pending-request table `HashMap<u64, Box<dyn Callback>>`, modelled as
an association list from request id to an abstract callback token. -/
abbrev Pending := List (Nat × Nat)

/-- HashMap insert: overwrites the entry with the same key if present,
otherwise adds a new entry. -/
def insertPending : Pending → Nat → Nat → Pending
  | [], k, v => [(k, v)]
  | (k2, v2) :: rest, k, v =>
    if k2 = k then (k, v) :: rest else (k2, v2) :: insertPending rest k v

/-- HashMap remove: returns the removed callback token (if the id was
present) and the table without that entry. -/
def removePending : Pending → Nat → Option Nat × Pending
  | [], _ => (none, [])
  | (k, v) :: rest, id =>
    if k = id then (some v, rest)
    else ((removePending rest id).1, (k, v) :: (removePending rest id).2)

/-- The callback token stored under an id, with a default for absent ids. -/
def lookupCb : Pending → Nat → Nat
  | [], _ => 0
  | (k, v) :: rest, id => if k = id then v else lookupCb rest id

/-- State observable from the reader thread of `Client::new`
(`src/rpc/client.rs` lines 105-147): the shared pending table, the
operations sent on the unbounded in-order channel (in send order), the
frames the thread writes back to the transport (the thread captures only the
channel sender and the pending table, never the transport writer, so no
branch appends here), the callback invocations `cb.call(result)` as
(token, result) events in execution order, and the messages logged on
receipt (line 115 logs every decoded message). -/
structure LoopState where
  pending : Pending
  ops : List RpcOperations
  outFrames : List Json
  invocations : List (Nat × Except Json Json)
  logs : List Message

/-- Result of handling one inbound message: either the loop continues with
an updated state, or the thread aborts (`panic` on decode failure,
`unreachable` on an unknown method). -/
inductive StepResult where
  | next (s : LoopState)
  | panicked (s : LoopState)

/-- Dispatch of one decoded message, `src/rpc/client.rs` lines 115-143.
Every decoded message is first logged. A Request with method
`measure_width` sends a MeasureWidth operation on the channel; any other
inbound Request method hits `unreachable!` and aborts. A Response removes
the pending entry with the matching id and invokes its callback; with no
match, nothing happens. A Notification routes through
`handleNotification`; an unknown method hits `unreachable!` and aborts. -/
def handleMsg (s0 : LoopState) (msg : Message) : StepResult :=
  let s := { s0 with logs := s0.logs ++ [msg] }
  match msg with
  | .request r =>
    if r.method = "measure_width" then
      .next { s with ops := s.ops ++ [RpcOperations.measureWidth (r.id, r.params)] }
    else
      .panicked s
  | .response r =>
    match removePending s.pending r.id with
    | (some cb, p2) =>
      .next { s with pending := p2, invocations := s.invocations ++ [(cb, r.result)] }
    | (none, _) => .next s
  | .notification n =>
    match handleNotification n.method n.params with
    | some op => .next { s with ops := s.ops ++ [op] }
    | none => .panicked s

/-- One iteration of the reader loop on a raw line: decode, then dispatch.
Decode failure is the `Err` arm of lines 110-113, which aborts the thread. -/
def readerStep (s : LoopState) (line : Option Json) : StepResult :=
  match decodeMsg line with
  | .error _ => .panicked s
  | .ok msg => handleMsg s msg

/-- Terminal outcome of the reader loop: `finished` when the transport read
fails and the `while` loop exits, `panicked` when the thread aborts. -/
inductive LoopOutcome where
  | finished (s : LoopState)
  | panicked (s : LoopState)

/-- The reader loop over a finite inbound line sequence
(`src/rpc/client.rs` lines 105-147); the list ending models the transport
read failing. -/
def readerLoop (s : LoopState) : List (Option Json) → LoopOutcome
  | [] => .finished s
  | l :: ls =>
    match readerStep s l with
    | .next s2 => readerLoop s2 ls
    | .panicked s2 => .panicked s2

/-- The reader loop restricted to already-decoded messages (the dispatch of
lines 115-143 iterated); equal to `readerLoop` on lines that all decode. -/
def runMsgs (s : LoopState) : List Message → LoopOutcome
  | [] => .finished s
  | m :: ms =>
    match handleMsg s m with
    | .next s2 => runMsgs s2 ms
    | .panicked s2 => .panicked s2

/-- The per-handle part of `Client` (lines 34-38): the id counter
`current_request_id: Cell<u64>`. The pending table and transport writer
are shared and threaded separately. -/
structure ClientState where
  currentRequestId : Nat

/-- The `Clone` impl (lines 46-54): `Cell::clone` copies the current counter
value into a fresh cell, so a clone gets an independent counter starting at
the value at clone time; the pending table is Arc-shared (modelled by
threading one table through all handles). -/
def cloneClient (c : ClientState) : ClientState :=
  ⟨c.currentRequestId⟩

/-- Observable effects of `send_request` in program order, used to state
ordering properties: the frame write (lines 232-234) and the callback
registration (lines 235-238). -/
inductive SendEvent where
  | writeFrame (j : Json)
  | register (id : Nat) (cb : Nat)

/-- True exactly on write events. -/
def SendEvent.isWrite : SendEvent → Bool
  | .writeFrame _ => true
  | .register _ _ => false

/-- True exactly on registration events. -/
def SendEvent.isReg : SendEvent → Bool
  | .writeFrame _ => false
  | .register _ _ => true

/-- Result of one `send_request` call: the updated handle, the updated
shared pending table, the id placed in the frame, and the effect trace. -/
structure SendResult where
  client : ClientState
  pending : Pending
  sentId : Nat
  trace : List SendEvent

/-- Embedding of `Client::send_request` (`src/rpc/client.rs` lines
221-240): build the frame with the current counter value, write and flush
it, then insert the callback under that id into the shared table, then
bump the counter. The trace records the write strictly before the
registration, as in the source. -/
def sendRequest (c : ClientState) (method : String) (params : Json) (cb : Nat)
    (pend : Pending) : SendResult :=
  let cmd := Json.obj
    [("method", .str method), ("params", params),
     ("id", .num (Int.ofNat c.currentRequestId))]
  let id := c.currentRequestId
  { client := ⟨id + 1⟩
    pending := insertPending pend id cb
    sentId := id
    trace := [.writeFrame cmd, .register id cb] }

/-- Iterated `send_request` through one handle: each element gives method,
params and the callback token. -/
def sendMany : ClientState → Pending → List (String × Json × Nat) → ClientState × Pending
  | c, pend, [] => (c, pend)
  | c, pend, (m, p, cb) :: rest =>
    let r := sendRequest c m p cb pend
    sendMany r.client r.pending rest

/-- Fine-grained events of the Response arm of the reader loop (line 132):
acquiring the pending-table mutex, removing the entry, running the callback
body, and dropping the mutex guard. -/
inductive RespEvent where
  | lockAcquire
  | removeEntry
  | callbackRun
  | lockRelease
deriving DecidableEq

/-- Event order of `if let Some(cb) = pending_requests.lock().unwrap().remove(&id) { cb.call(result); }`
(line 132). The mutex guard is a temporary created in the scrutinee of the
`if let`; under the temporary-scope rules of Rust 2021 it is dropped at the
end of the whole `if let` statement, so when an entry is found the guard is
released only after `cb.call(result)` returns. -/
def responseBranchTrace (pend : Pending) (id : Nat) : List RespEvent :=
  match (removePending pend id).1 with
  | some _ => [.lockAcquire, .removeEntry, .callbackRun, .lockRelease]
  | none => [.lockAcquire, .removeEntry, .lockRelease]

/-- A whole client system: the handle, the reader-side state (shared pending
table, channel, invocations) and whether a reader thread exists.
`Client::new` (lines 94-150) spawns the reader thread; `Default::default`
(lines 62-71) binds the receiving half to `_receiver`, dropping it, and
spawns no reader. -/
structure SystemState where
  client : ClientState
  loop : LoopState
  hasReader : Bool

/-- The system produced by `Client::new`: counter 0, empty table, reader
thread running. -/
def clientNew : SystemState :=
  ⟨⟨0⟩, ⟨[], [], [], [], []⟩, true⟩

/-- The system produced by `Default::default` for `Client` (lines 62-71):
counter 0, empty table, and the inbound half of the transport dropped, so
no reader thread exists. -/
def clientDefault : SystemState :=
  ⟨⟨0⟩, ⟨[], [], [], [], []⟩, false⟩

/-- One `send_request` on a system. -/
def sendRequestSys (sys : SystemState) (m : String) (p : Json) (cb : Nat) : SystemState :=
  let r := sendRequest sys.client m p cb sys.loop.pending
  { sys with client := r.client, loop := { sys.loop with pending := r.pending } }

/-- Iterated `send_request` on a system. -/
def sendManySys : SystemState → List (String × Json × Nat) → SystemState
  | sys, [] => sys
  | sys, (m, p, cb) :: rest => sendManySys (sendRequestSys sys m p cb) rest

/-- Delivery of inbound messages to a system. With a reader thread they are
dispatched by the reader loop; without one (the `Default` client) the
receiving half of the pipe has been dropped and every inbound byte is
discarded, leaving the system unchanged. -/
def deliverMsgs (sys : SystemState) (msgs : List Message) : SystemState :=
  if sys.hasReader then
    match runMsgs sys.loop msgs with
    | .finished s2 => { sys with loop := s2 }
    | .panicked s2 => { sys with loop := s2 }
  else sys

/-- Keys of the table after a removal: the first entry with the removed id
is gone, everything else keeps its place. -/
theorem removePending_keys (p : Pending) (id : Nat) :
    ((removePending p id).2).map Prod.fst = (p.map Prod.fst).erase id := by
  induction p with
  | nil => rfl
  | cons kv rest ih =>
    obtain ⟨k, v⟩ := kv
    by_cases h : k = id
    · simp [removePending, h, List.erase_cons]
    · simp [removePending, h, List.erase_cons, ih]

/-- Removal of an absent id leaves the table unchanged and finds nothing. -/
theorem removePending_not_found (p : Pending) (id : Nat) (h : id ∉ p.map Prod.fst) :
    removePending p id = (none, p) := by
  induction p with
  | nil => rfl
  | cons kv rest ih =>
    obtain ⟨k, v⟩ := kv
    rw [List.map_cons, List.mem_cons] at h
    push_neg at h
    simp [removePending, Ne.symm h.1, ih h.2]

/-- Removal of a present id returns the callback token stored under it. -/
theorem removePending_found (p : Pending) (id : Nat) (h : id ∈ p.map Prod.fst) :
    (removePending p id).1 = some (lookupCb p id) := by
  induction p with
  | nil => simp at h
  | cons kv rest ih =>
    obtain ⟨k, v⟩ := kv
    by_cases hk : k = id
    · simp [removePending, lookupCb, hk]
    · rw [List.map_cons, List.mem_cons] at h
      have hm : id ∈ rest.map Prod.fst := by
        rcases h with h1 | h1
        · exact absurd h1.symm hk
        · exact h1
      simp [removePending, lookupCb, hk, ih hm]

/-- Removing one id does not change the callback stored under any other. -/
theorem lookupCb_removePending (p : Pending) (id k : Nat) (h : k ≠ id) :
    lookupCb (removePending p id).2 k = lookupCb p k := by
  induction p with
  | nil => rfl
  | cons kv rest ih =>
    obtain ⟨k2, v2⟩ := kv
    by_cases h2 : k2 = id
    · subst h2
      simp [removePending, lookupCb, Ne.symm h]
    · simp [removePending, lookupCb, h2, ih]

/-- Inserting a fresh key appends the entry at the end of the table. -/
theorem insertPending_fresh (p : Pending) (k v : Nat) (h : k ∉ p.map Prod.fst) :
    insertPending p k v = p ++ [(k, v)] := by
  induction p with
  | nil => rfl
  | cons kv rest ih =>
    obtain ⟨k2, v2⟩ := kv
    rw [List.map_cons, List.mem_cons] at h
    push_neg at h
    simp [insertPending, Ne.symm h.1, ih h.2]

/-- Iterated `send_request` through one handle whose counter dominates every
key already in the table: the ids handed out are the consecutive values of
the counter, appended in order, and the counter advances by the number of
requests. -/
theorem sendMany_keys (reqs : List (String × Json × Nat)) (c : ClientState) (pend : Pending)
    (h : ∀ k ∈ pend.map Prod.fst, k < c.currentRequestId) :
    ((sendMany c pend reqs).2).map Prod.fst =
      pend.map Prod.fst ++ List.range' c.currentRequestId reqs.length ∧
    (sendMany c pend reqs).1.currentRequestId = c.currentRequestId + reqs.length := by
  induction reqs generalizing c pend with
  | nil => simp [sendMany]
  | cons r rest ih =>
    obtain ⟨m, p, cb⟩ := r
    have hfresh : c.currentRequestId ∉ pend.map Prod.fst :=
      fun hm => absurd (h _ hm) (lt_irrefl _)
    have hins := insertPending_fresh pend c.currentRequestId cb hfresh
    have h2 : ∀ k ∈ (insertPending pend c.currentRequestId cb).map Prod.fst,
        k < c.currentRequestId + 1 := by
      intro k hk
      rw [hins, List.map_append] at hk
      rcases List.mem_append.mp hk with hk1 | hk1
      · exact Nat.lt_succ_of_lt (h _ hk1)
      · simp at hk1
        omega
    have hstep : sendMany c pend ((m, p, cb) :: rest) =
        sendMany ⟨c.currentRequestId + 1⟩ (insertPending pend c.currentRequestId cb) rest := rfl
    obtain ⟨ih1, ih2⟩ := ih ⟨c.currentRequestId + 1⟩ (insertPending pend c.currentRequestId cb) h2
    constructor
    · rw [hstep, ih1, hins]
      simp [List.range'_succ]
    · rw [hstep, ih2]
      simp only [List.length_cons]
      omega

/-- Core correlation lemma: when the pending table has pairwise-distinct ids
and the inbound responses carry exactly those ids (in any order), the
reader loop resolves every entry — the table empties and the recorded
invocations are, in arrival order, the callback stored under each response
id paired with that response's own result. -/
theorem runMsgs_responses (resps : List RpcResponse) (pend : Pending)
    (ops : List RpcOperations) (fr : List Json) (inv : List (Nat × Except Json Json))
    (logs : List Message)
    (hnd : (pend.map Prod.fst).Nodup)
    (hperm : List.Perm (resps.map RpcResponse.id) (pend.map Prod.fst)) :
    runMsgs ⟨pend, ops, fr, inv, logs⟩ (resps.map Message.response) =
      .finished ⟨[], ops, fr,
        inv ++ resps.map (fun r => (lookupCb pend r.id, r.result)),
        logs ++ resps.map Message.response⟩ := by
  induction resps generalizing pend inv logs with
  | nil =>
    have hkeys : pend.map Prod.fst = [] := (hperm.symm).eq_nil
    have hpend : pend = [] := List.map_eq_nil_iff.mp hkeys
    subst hpend
    simp [runMsgs]
  | cons r rest ih =>
    have hmem : r.id ∈ pend.map Prod.fst := hperm.subset (by simp)
    rcases hrm : removePending pend r.id with ⟨o, p2⟩
    have ho : o = some (lookupCb pend r.id) := by
      have := removePending_found pend r.id hmem
      rw [hrm] at this
      exact this
    subst ho
    have hkeys2 : p2.map Prod.fst = (pend.map Prod.fst).erase r.id := by
      have := removePending_keys pend r.id
      rw [hrm] at this
      exact this
    have hnd2 : (p2.map Prod.fst).Nodup := by
      rw [hkeys2]
      exact hnd.erase _
    have hperm2 : List.Perm (rest.map RpcResponse.id) (p2.map Prod.fst) := by
      rw [hkeys2]
      exact (List.cons_perm_iff_perm_erase.mp hperm).2
    have hstep : handleMsg ⟨pend, ops, fr, inv, logs⟩ (.response r) =
        .next ⟨p2, ops, fr, inv ++ [(lookupCb pend r.id, r.result)],
          logs ++ [.response r]⟩ := by
      simp [handleMsg, hrm]
    have hlook : ∀ rp ∈ rest, (fun q : RpcResponse => (lookupCb p2 q.id, q.result)) rp =
        (fun q : RpcResponse => (lookupCb pend q.id, q.result)) rp := by
      intro rp hrp
      have hrpmem : rp.id ∈ (pend.map Prod.fst).erase r.id := by
        rw [← hkeys2]
        exact hperm2.subset (List.mem_map_of_mem _ hrp)
      have hne : rp.id ≠ r.id := (hnd.mem_erase_iff.mp hrpmem).1
      have := lookupCb_removePending pend r.id rp.id hne
      rw [hrm] at this
      simp [this]
    calc runMsgs ⟨pend, ops, fr, inv, logs⟩ ((r :: rest).map Message.response)
        = runMsgs ⟨p2, ops, fr, inv ++ [(lookupCb pend r.id, r.result)],
            logs ++ [.response r]⟩ (rest.map Message.response) := by
          simp [runMsgs, hstep]
      _ = .finished ⟨[], ops, fr,
            (inv ++ [(lookupCb pend r.id, r.result)]) ++
              rest.map (fun q => (lookupCb p2 q.id, q.result)),
            (logs ++ [.response r]) ++ rest.map Message.response⟩ :=
          ih p2 (inv ++ [(lookupCb pend r.id, r.result)]) (logs ++ [.response r]) hnd2 hperm2
      _ = .finished ⟨[], ops, fr,
            inv ++ (r :: rest).map (fun q => (lookupCb pend q.id, q.result)),
            logs ++ (r :: rest).map Message.response⟩ := by
          rw [List.map_congr_left hlook]
          simp

/-- C1 (amended): requests issued through a single Client handle are
assigned the distinct consecutive ids 0, 1, ..., and whatever order the
responses bearing those ids arrive in, every pending entry is resolved and
each callback fires exactly once, with the result carried by the response
bearing its own request's id. The claim as stated fails for cloned
handles: `Clone` copies the `Cell` id counter instead of sharing it, so
clones can assign duplicate ids (see the counterexample). -/
theorem C1_single_handle (reqs : List (String × Json × Nat)) (resps : List RpcResponse)
    (hperm : List.Perm (resps.map RpcResponse.id) (List.range reqs.length)) :
    (((sendMany ⟨0⟩ [] reqs).2).map Prod.fst = List.range reqs.length) ∧
    (((sendMany ⟨0⟩ [] reqs).2).map Prod.fst).Nodup ∧
    runMsgs ⟨(sendMany ⟨0⟩ [] reqs).2, [], [], [], []⟩ (resps.map Message.response) =
      .finished ⟨[], [], [],
        resps.map (fun r => (lookupCb (sendMany ⟨0⟩ [] reqs).2 r.id, r.result)),
        resps.map Message.response⟩ := by
  have hkeys : ((sendMany ⟨0⟩ [] reqs).2).map Prod.fst = List.range reqs.length := by
    have := (sendMany_keys reqs ⟨0⟩ [] (by simp)).1
    rw [List.range_eq_range' reqs.length]
    simpa using this
  have hnd : (((sendMany ⟨0⟩ [] reqs).2).map Prod.fst).Nodup := by
    rw [hkeys]
    exact List.nodup_range reqs.length
  refine ⟨hkeys, hnd, ?_⟩
  have := runMsgs_responses resps ((sendMany ⟨0⟩ [] reqs).2) [] [] [] [] hnd
    (by rw [hkeys]; exact hperm)
  simpa using this

/-- C1 witness: two requests issued through one fresh handle get ids 0 and
1, and with the responses arriving in reversed order each callback receives
the result for its own id. -/
theorem C1_single_handle_witness :
    List.Perm (([⟨1, .ok Json.null⟩, ⟨0, .ok (Json.str "x")⟩] :
        List RpcResponse).map RpcResponse.id)
      (List.range ([("a", Json.null, 10), ("b", Json.null, 11)] :
        List (String × Json × Nat)).length) ∧
    ((((sendMany ⟨0⟩ [] [("a", Json.null, 10), ("b", Json.null, 11)]).2).map Prod.fst =
      List.range 2) ∧
    ((((sendMany ⟨0⟩ [] [("a", Json.null, 10), ("b", Json.null, 11)]).2).map Prod.fst).Nodup) ∧
    runMsgs ⟨(sendMany ⟨0⟩ [] [("a", Json.null, 10), ("b", Json.null, 11)]).2, [], [], [], []⟩
        (([⟨1, .ok Json.null⟩, ⟨0, .ok (Json.str "x")⟩] :
          List RpcResponse).map Message.response) =
      .finished ⟨[], [], [],
        ([⟨1, .ok Json.null⟩, ⟨0, .ok (Json.str "x")⟩] : List RpcResponse).map
          (fun r => (lookupCb (sendMany ⟨0⟩ []
            [("a", Json.null, 10), ("b", Json.null, 11)]).2 r.id, r.result)),
        ([⟨1, .ok Json.null⟩, ⟨0, .ok (Json.str "x")⟩] : List RpcResponse).map
          Message.response⟩) :=
  ⟨by decide, C1_single_handle [("a", Json.null, 10), ("b", Json.null, 11)]
    [⟨1, .ok Json.null⟩, ⟨0, .ok (Json.str "x")⟩] (by decide)⟩

/-- C2: counterexample. In the concrete call of `send_request` with method
new_view on a fresh client, the effect trace places the frame write at
index 0 and the callback registration at index 1, so the registration
happens strictly after the write, refuting the claim that the callback is
registered before or atomically with the write and never after. -/
theorem C2_counterexample :
    (((sendRequest ⟨0⟩ "new_view" (Json.obj []) 7 []).trace).findIdx SendEvent.isWrite = 0) ∧
    (((sendRequest ⟨0⟩ "new_view" (Json.obj []) 7 []).trace).findIdx SendEvent.isReg = 1) ∧
    ¬ ((sendRequest ⟨0⟩ "new_view" (Json.obj []) 7 []).trace).findIdx SendEvent.isReg ≤
      ((sendRequest ⟨0⟩ "new_view" (Json.obj []) 7 []).trace).findIdx SendEvent.isWrite := by
  refine ⟨rfl, rfl, by decide⟩

/-- C2 (amended): in every execution of `send_request` the callback is
registered strictly after the write of the Request frame to the transport:
the effect trace is exactly the frame write followed by the registration
under the id carried by that frame. -/
theorem C2_write_then_register (c : ClientState) (m : String) (p : Json) (cb : Nat)
    (pend : Pending) :
    (sendRequest c m p cb pend).trace =
      [SendEvent.writeFrame (Json.obj
        [("method", .str m), ("params", p),
         ("id", .num (Int.ofNat c.currentRequestId))]),
       SendEvent.register c.currentRequestId cb] := rfl

/-- C3: on a line that is not valid JSON the reader thread aborts (the
decode Err arm calls panic), so the following valid theme-changed
notification line is never processed and the operations channel stays
empty, although that same line processed alone decodes and routes to a
ThemeChanged operation. -/
theorem C3_decode_failure_aborts :
    (readerLoop ⟨[], [], [], [], []⟩
       [none, some (Json.obj [("method", .str "theme_changed"), ("params", .obj [])])] =
      .panicked ⟨[], [], [], [], []⟩) ∧
    (readerLoop ⟨[], [], [], [], []⟩
       [some (Json.obj [("method", .str "theme_changed"), ("params", .obj [])])] =
      .finished ⟨[], [.themeChanged (.obj [])], [], [],
        [.notification ⟨"theme_changed", .obj []⟩]⟩) := ⟨rfl, rfl⟩

/-- C4: a notification whose method is not in the routing table hits the
wildcard arm of `handle_notification`, which is an unconditional abort:
the thread dies and a subsequent valid theme-changed notification is never
served on the operations stream. -/
theorem C4_unknown_method_aborts :
    (handleNotification "not_a_real_method" (Json.obj []) = none) ∧
    (runMsgs ⟨[], [], [], [], []⟩
       [.notification ⟨"not_a_real_method", .obj []⟩,
        .notification ⟨"theme_changed", .obj []⟩] =
      .panicked ⟨[], [], [], [], [.notification ⟨"not_a_real_method", .obj []⟩]⟩) :=
  ⟨rfl, rfl⟩

/-- C5: an inbound Request with an unknown method aborts the reader thread
instead of producing an error Response, and even for the known method
measure_width the reader thread writes no Response frame back at all (it
only forwards the request on the operations channel; the application layer
merely logs it). -/
theorem C5_inbound_request :
    (runMsgs ⟨[], [], [], [], []⟩ [.request ⟨"foo", .obj [], 1⟩] =
      .panicked ⟨[], [], [], [], [.request ⟨"foo", .obj [], 1⟩]⟩) ∧
    (runMsgs ⟨[], [], [], [], []⟩ [.request ⟨"measure_width", .obj [], 7⟩] =
      .finished ⟨[], [.measureWidth (7, .obj [])], [], [],
        [.request ⟨"measure_width", .obj [], 7⟩]⟩) := ⟨rfl, rfl⟩

/-- C6: when the transport closes while a request (id 0, callback token 5)
is still pending, the reader loop ends — by the read failing, or by the
empty end-of-stream buffer failing to decode and aborting the thread — with
the callback still in the table and never invoked: it is silently dropped,
not resolved with a failure result. -/
theorem C6_teardown_drops_callbacks :
    (readerLoop ⟨[(0, 5)], [], [], [], []⟩ [] = .finished ⟨[(0, 5)], [], [], [], []⟩) ∧
    (readerLoop ⟨[(0, 5)], [], [], [], []⟩ [none] = .panicked ⟨[(0, 5)], [], [], [], []⟩) :=
  ⟨rfl, rfl⟩

/-- C1: counterexample. Cloning a client copies the id counter instead of
sharing it: a fresh handle and its clone both assign id 0 to their next
request, so the ids are not distinct; the second registration overwrites
the first callback (token 10) in the shared table, and when the response
bearing id 0 arrives only the second callback (token 20) fires — the first
registered callback never fires at all. -/
theorem C1_counterexample :
    ((sendRequest ⟨0⟩ "a" Json.null 10 []).sentId =
      (sendRequest (cloneClient ⟨0⟩) "b" Json.null 20
        (sendRequest ⟨0⟩ "a" Json.null 10 []).pending).sentId) ∧
    ((sendRequest (cloneClient ⟨0⟩) "b" Json.null 20
        (sendRequest ⟨0⟩ "a" Json.null 10 []).pending).pending = [(0, 20)]) ∧
    (runMsgs ⟨(sendRequest (cloneClient ⟨0⟩) "b" Json.null 20
        (sendRequest ⟨0⟩ "a" Json.null 10 []).pending).pending, [], [], [], []⟩
       [.response ⟨0, .ok Json.null⟩] =
      .finished ⟨[], [], [], [(20, .ok Json.null)],
        [.response ⟨0, .ok Json.null⟩]⟩) := ⟨rfl, rfl, rfl⟩

/-- C9: counterexample. For the concrete table holding id 0 and a matching
response, the event order of the Response arm runs the callback strictly
before the lock release, refuting the claim that the lock is released
before the callback body executes. -/
theorem C9_counterexample :
    (responseBranchTrace [(0, 5)] 0 =
      [.lockAcquire, .removeEntry, .callbackRun, .lockRelease]) ∧
    ¬ ((responseBranchTrace [(0, 5)] 0).indexOf RespEvent.lockRelease <
       (responseBranchTrace [(0, 5)] 0).indexOf RespEvent.callbackRun) :=
  ⟨rfl, by decide⟩

/-- C9 (amended): whenever a matching Response is resolved, the callback
body runs while the pending-table lock is still held — the mutex guard is a
temporary of the if-let scrutinee and is dropped only after the callback
returns — so a callback that itself issues a new request through the same
table would deadlock. -/
theorem C9_lock_held_during_callback (pend : Pending) (id : Nat)
    (h : ((removePending pend id).1).isSome = true) :
    responseBranchTrace pend id =
      [.lockAcquire, .removeEntry, .callbackRun, .lockRelease] ∧
    (responseBranchTrace pend id).indexOf RespEvent.callbackRun <
      (responseBranchTrace pend id).indexOf RespEvent.lockRelease := by
  rcases hs : (removePending pend id).1 with _ | cb
  · rw [hs] at h
    simp at h
  · refine ⟨?_, ?_⟩ <;> simp [responseBranchTrace, hs]

/-- C9 witness: the amended theorem applied at the concrete table holding
id 0 with callback token 5 and the response id 0. -/
theorem C9_lock_held_witness :
    ((removePending [(0, 5)] 0).1).isSome = true ∧
    (responseBranchTrace [(0, 5)] 0 =
      [.lockAcquire, .removeEntry, .callbackRun, .lockRelease] ∧
    (responseBranchTrace [(0, 5)] 0).indexOf RespEvent.callbackRun <
      (responseBranchTrace [(0, 5)] 0).indexOf RespEvent.lockRelease) :=
  ⟨by decide, C9_lock_held_during_callback [(0, 5)] 0 (by decide)⟩

/-- C7: for a wire sequence of notifications that all route (known method),
the reader loop pushes onto the single in-order channel exactly one domain
operation per notification, in the same relative order, and drops none:
the emitted list is the routed image of the input and has the same length. -/
theorem C7_notifications_in_order (noti : List RpcNotification) (pend : Pending)
    (ops : List RpcOperations) (fr : List Json) (inv : List (Nat × Except Json Json))
    (logs : List Message)
    (h : ∀ n ∈ noti, (handleNotification n.method n.params).isSome = true) :
    runMsgs ⟨pend, ops, fr, inv, logs⟩ (noti.map Message.notification) =
      .finished ⟨pend,
        ops ++ noti.filterMap (fun n => handleNotification n.method n.params),
        fr, inv, logs ++ noti.map Message.notification⟩ ∧
    (noti.filterMap (fun n => handleNotification n.method n.params)).length =
      noti.length := by
  constructor
  · induction noti generalizing ops logs with
    | nil => simp [runMsgs]
    | cons n rest ih =>
      obtain ⟨op, hop⟩ := Option.isSome_iff_exists.mp (h n (by simp))
      have hstep : handleMsg ⟨pend, ops, fr, inv, logs⟩ (.notification n) =
          .next ⟨pend, ops ++ [op], fr, inv, logs ++ [.notification n]⟩ := by
        simp [handleMsg, hop]
      have ihr := ih (ops ++ [op]) (logs ++ [.notification n]) (fun x hx => h x (by simp [hx]))
      simp only [List.map_cons, runMsgs, hstep, ihr, List.filterMap_cons, hop]
      simp
  · induction noti with
    | nil => rfl
    | cons n rest ih =>
      obtain ⟨op, hop⟩ := Option.isSome_iff_exists.mp (h n (by simp))
      simp [List.filterMap_cons, hop, ih (fun x hx => h x (by simp [hx]))]

/-- C7 witness: two known notifications (theme_changed then update) are
emitted as two operations in the same order, none dropped. -/
theorem C7_notifications_witness :
    (∀ n ∈ ([⟨"theme_changed", .obj []⟩, ⟨"update", Json.null⟩] : List RpcNotification),
      (handleNotification n.method n.params).isSome = true) ∧
    (runMsgs ⟨[], [], [], [], []⟩
        (([⟨"theme_changed", .obj []⟩, ⟨"update", Json.null⟩] :
          List RpcNotification).map Message.notification) =
      .finished ⟨[],
        [] ++ ([⟨"theme_changed", .obj []⟩, ⟨"update", Json.null⟩] :
          List RpcNotification).filterMap (fun n => handleNotification n.method n.params),
        [], [],
        [] ++ ([⟨"theme_changed", .obj []⟩, ⟨"update", Json.null⟩] :
          List RpcNotification).map Message.notification⟩ ∧
    (([⟨"theme_changed", .obj []⟩, ⟨"update", Json.null⟩] :
        List RpcNotification).filterMap
      (fun n => handleNotification n.method n.params)).length =
      ([⟨"theme_changed", .obj []⟩, ⟨"update", Json.null⟩] :
        List RpcNotification).length) :=
  ⟨by decide, C7_notifications_in_order
    [⟨"theme_changed", .obj []⟩, ⟨"update", Json.null⟩] [] [] [] [] [] (by decide)⟩

/-- C8: handling a Response. The removal reports whether a matching id was
present; with no match nothing is disturbed and the loop continues (the
message was still logged on receipt); with a match the entry is removed and
its callback invoked once with the carried result; and any other pending id
keeps both its presence and its stored callback. -/
theorem C8_resolve (pend : Pending) (id : Nat) (res : Except Json Json)
    (ops : List RpcOperations) (fr : List Json) (inv : List (Nat × Except Json Json))
    (logs : List Message) :
    ((removePending pend id).1.isSome = true ↔ id ∈ pend.map Prod.fst) ∧
    (id ∉ pend.map Prod.fst →
      handleMsg ⟨pend, ops, fr, inv, logs⟩ (.response ⟨id, res⟩) =
        .next ⟨pend, ops, fr, inv, logs ++ [.response ⟨id, res⟩]⟩) ∧
    (id ∈ pend.map Prod.fst →
      handleMsg ⟨pend, ops, fr, inv, logs⟩ (.response ⟨id, res⟩) =
        .next ⟨(removePending pend id).2, ops, fr,
          inv ++ [(lookupCb pend id, res)], logs ++ [.response ⟨id, res⟩]⟩) ∧
    (∀ k, k ≠ id →
      lookupCb (removePending pend id).2 k = lookupCb pend k ∧
      (k ∈ ((removePending pend id).2).map Prod.fst ↔ k ∈ pend.map Prod.fst)) := by
  refine ⟨⟨fun hs => ?_, fun hm => ?_⟩, fun hm => ?_, fun hm => ?_, fun k hk => ⟨?_, ?_⟩⟩
  · by_contra hm
    rw [removePending_not_found pend id hm] at hs
    simp at hs
  · rw [removePending_found pend id hm]
    rfl
  · have hr := removePending_not_found pend id hm
    simp [handleMsg, hr]
  · have hr := removePending_found pend id hm
    rcases hrm : removePending pend id with ⟨o, p2⟩
    rw [hrm] at hr
    subst hr
    simp [handleMsg, hrm]
  · exact lookupCb_removePending pend id k hk
  · rw [removePending_keys pend id]
    exact List.mem_erase_of_ne hk

/-- C8 witness: the theorem instantiated at the table holding id 0 under
callback token 5 and a response with id 0: the match is reported, the entry
is removed and the callback invoked with the carried result, and an absent
id 1 would alter nothing. -/
theorem C8_resolve_witness :
    (((removePending [(0, 5)] 0).1.isSome = true ↔ 0 ∈ ([(0, 5)] : Pending).map Prod.fst) ∧
    (0 ∉ ([(0, 5)] : Pending).map Prod.fst →
      handleMsg ⟨[(0, 5)], [], [], [], []⟩ (.response ⟨0, .ok Json.null⟩) =
        .next ⟨[(0, 5)], [], [], [], [] ++ [.response ⟨0, .ok Json.null⟩]⟩) ∧
    (0 ∈ ([(0, 5)] : Pending).map Prod.fst →
      handleMsg ⟨[(0, 5)], [], [], [], []⟩ (.response ⟨0, .ok Json.null⟩) =
        .next ⟨(removePending [(0, 5)] 0).2, [], [],
          [] ++ [(lookupCb [(0, 5)] 0, .ok Json.null)],
          [] ++ [.response ⟨0, .ok Json.null⟩]⟩) ∧
    (∀ k, k ≠ 0 →
      lookupCb (removePending [(0, 5)] 0).2 k = lookupCb [(0, 5)] k ∧
      (k ∈ ((removePending [(0, 5)] 0).2).map Prod.fst ↔
        k ∈ ([(0, 5)] : Pending).map Prod.fst))) :=
  C8_resolve [(0, 5)] 0 (.ok Json.null) [] [] [] []

/-- Iterated `send_request` on a system acts only on the handle counter and
the shared pending table. -/
theorem sendManySys_spec (reqs : List (String × Json × Nat)) (sys : SystemState) :
    sendManySys sys reqs =
      { sys with
        client := (sendMany sys.client sys.loop.pending reqs).1,
        loop := { sys.loop with pending := (sendMany sys.client sys.loop.pending reqs).2 } } := by
  induction reqs generalizing sys with
  | nil => rfl
  | cons r rest ih =>
    obtain ⟨m, p, cb⟩ := r
    rw [show sendManySys sys ((m, p, cb) :: rest) =
      sendManySys (sendRequestSys sys m p cb) rest from rfl, ih]
    rfl

/-- C10: a Default-constructed client has no reader loop (the receiving
half is dropped), so after any sequence of requests and any inbound
traffic, no callback is ever invoked, no domain operation is ever emitted,
and every registered request (ids 0 .. n-1) stays in the pending table
forever. -/
theorem C10_default_client (reqs : List (String × Json × Nat)) (msgs : List Message) :
    (deliverMsgs (sendManySys clientDefault reqs) msgs).loop.invocations = [] ∧
    (deliverMsgs (sendManySys clientDefault reqs) msgs).loop.ops = [] ∧
    ((deliverMsgs (sendManySys clientDefault reqs) msgs).loop.pending).map Prod.fst =
      List.range reqs.length := by
  have hspec := sendManySys_spec reqs clientDefault
  have hreader : (sendManySys clientDefault reqs).hasReader = false := by
    rw [hspec]
    rfl
  have hdel : deliverMsgs (sendManySys clientDefault reqs) msgs =
      sendManySys clientDefault reqs := by
    simp [deliverMsgs, hreader]
  rw [hdel, hspec]
  refine ⟨rfl, rfl, ?_⟩
  have hk := (sendMany_keys reqs ⟨0⟩ [] (by simp)).1
  rw [List.range_eq_range' reqs.length]
  simpa [clientDefault] using hk

end Conan
